import Mathlib

/-!
Shallow embedding of the roproxy-lite reverse proxy (src/main.go).

The proxy receives an inbound HTTP request, authenticates it against the
optional KEY secret, parses its request-target `/<host>/<rest>` into an
upstream target, forwards the request over HTTPS with filtered headers,
and relays the upstream response, retrying transport failures and 5xx
responses with linear backoff up to a configured number of attempts.

Upstream behaviour is abstracted by an oracle mapping the attempt number
to the outcome of that attempt (a transport error or a received
response).  The engine produces, besides the final response, a trace of
observable events: one `call` event per upstream invocation (carrying
the outbound request that was sent) and one `sleepMs` event per sleep.
-/

/-- An HTTP response as seen by the proxy: status code, header list
(in order, possibly with repeated names), body bytes (as a string). -/
structure Response where
  statusCode : Nat
  headers : List (String × String)
  body : String
  deriving Repr, DecidableEq

/-- The inbound request: method, raw request-target (as received,
including the leading slash and any query string), header list, body. -/
structure InboundRequest where
  method : String
  requestURI : String
  headers : List (String × String)
  body : String
  deriving Repr, DecidableEq

/-- The outbound upstream request built by `makeRequest`: method, full
URI, Host value, header list, body. -/
structure OutboundRequest where
  method : String
  uri : String
  host : String
  headers : List (String × String)
  body : String
  deriving Repr, DecidableEq

/-- Process configuration read from the environment at startup:
`retries` is RETRIES (an int, default 5) and `key` is the KEY secret
(`none` when the variable is unset, mirroring `os.LookupEnv`). -/
structure Config where
  retries : Int
  key : Option String
  deriving Repr, DecidableEq

/-- Outcome of one upstream attempt: `client.Do` either fails at the
transport level or yields a response. -/
inductive AttemptResult where
  | transportError
  | response (r : Response)
  deriving Repr, DecidableEq

/-- Observable events of one proxy cycle: an upstream call (with the
attempt number and the outbound request sent) or a sleep in ms. -/
inductive Event where
  | call (attempt : Nat) (out : OutboundRequest)
  | sleepMs (ms : Nat)
  deriving Repr, DecidableEq

/-- Go `strings.ToLower` restricted to the proxy's use (header names):
per-character ASCII lowercasing. -/
def lowerStr (s : String) : String :=
  String.mk (s.toList.map Char.toLower)

/-- `fasthttp` header `Set`: replaces every entry whose name matches
case-insensitively, appending the new pair. -/
def headerSet (hs : List (String × String)) (k v : String) : List (String × String) :=
  hs.filter (fun p => (lowerStr p.1) ≠ (lowerStr k)) ++ [(k, v)]

/-- `fasthttp` header `Del`: removes every entry whose name matches
case-insensitively. -/
def headerDel (hs : List (String × String)) (k : String) : List (String × String) :=
  hs.filter (fun p => (lowerStr p.1) ≠ (lowerStr k))

/-- `fasthttp` header `Peek` converted to a Go string: the value of the
first case-insensitive match, or `""` when the header is absent
(`string(nil) = ""`). -/
def peekStr (hs : List (String × String)) (k : String) : String :=
  match hs.find? (fun p => (lowerStr p.1) = (lowerStr k)) with
  | some p => p.2
  | none => ""

/-- Split a character list at the first `/`, returning the prefix and,
when a `/` was found, the remainder after it. -/
def breakSlash : List Char → List Char × Option (List Char)
  | [] => ([], none)
  | c :: cs =>
    if c = '/' then ([], some cs)
    else
      let r := breakSlash cs
      (c :: r.1, r.2)

/-- Go `strings.SplitN(s, "/", 2)`: `[s]` when `s` has no `/`, else the
part before the first `/` and everything after it. -/
def splitN2 (s : String) : List String :=
  match breakSlash s.toList with
  | (a, none) => [String.mk a]
  | (a, some b) => [String.mk a, String.mk b]

/-- Go `raw[1:]` on a request-target (whose first byte is the ASCII
`/`): drop the first character. -/
def stripLead (s : String) : String :=
  String.mk (s.toList.drop 1)

/-- Go `strconv.Atoi` with the error ignored: the parsed integer, or 0
when the string is not a syntactically valid integer. -/
def goAtoi (s : String) : Int :=
  let core : List Char → Option Nat := fun ds =>
    if ds.isEmpty then none
    else if ds.all Char.isDigit then
      some (ds.foldl (fun a c => a * 10 + (c.toNat - 48)) 0)
    else none
  match s.toList with
  | '+' :: rest =>
    match core rest with
    | some n => (n : Int)
    | none => 0
  | '-' :: rest =>
    match core rest with
    | some n => -(n : Int)
    | none => 0
  | l =>
    match core l with
    | some n => (n : Int)
    | none => 0

/-- The header names dropped by the forwarding loop in `makeRequest`
(compared after `strings.ToLower`). -/
def dropSet : List String :=
  ["host", "connection", "proxy-connection", "keep-alive",
   "transfer-encoding", "upgrade", "te", "content-length",
   "accept-encoding", "proxykey", "x-request-id"]

/-- One step of the header-forwarding loop: a header in the drop-set is
skipped, any other is `Set` on the outbound request. -/
def fwStep (acc : List (String × String)) (kv : String × String) : List (String × String) :=
  if dropSet.contains (lowerStr kv.1) then acc else headerSet acc kv.1 kv.2

/-- The outbound header set: the fresh request gets
`User-Agent: RoProxy` and `Del("Roblox-Id")`, then every inbound header
is visited in order and either dropped or `Set`. -/
def forwardHeaders (inHs : List (String × String)) : List (String × String) :=
  inHs.foldl fwStep (headerDel (headerSet [] "User-Agent" "RoProxy") "Roblox-Id")

/-- The outbound upstream request built from the inbound request and the
parsed host/path: URI `https://<host>/<path>`, method and body copied,
headers filtered. -/
def buildOutbound (req : InboundRequest) (upHost upPath : String) : OutboundRequest :=
  { method := req.method
    uri := "https://" ++ upHost ++ "/" ++ upPath
    host := upHost
    headers := forwardHeaders req.headers
    body := req.body }

/-- The synthetic response produced when the attempt counter exceeds
`retries`. -/
def timeout504 : Response :=
  { statusCode := 504, headers := [], body := "upstream timeout" }

/-- The response produced when the request-target does not split into
two parts. -/
def badFormat400 : Response :=
  { statusCode := 400, headers := [], body := "URL format invalid." }

/-- The response produced when the PROXYKEY check fails. -/
def auth407 : Response :=
  { statusCode := 407, headers := [], body := "Missing or invalid PROXYKEY header." }

/-- `makeRequest(ctx, attempt)` from src/main.go: returns the final
response together with the trace of upstream calls and sleeps.
If `attempt > retries`, return the synthetic 504.  Otherwise parse the
target, build the outbound request, and consult the upstream: a
transport error logs, sleeps `100ms * attempt` and recurses; a 429
optionally sleeps `Retry-After` seconds plus 100ms and is final; a
5xx sleeps `100ms * attempt`, discards the response and recurses; any
other response is final. -/
def makeRequest (cfg : Config) (req : InboundRequest)
    (oracle : Nat → AttemptResult) (attempt : Nat) : Response × List Event :=
  if _hstop : (attempt : Int) > cfg.retries then
    (timeout504, [])
  else
    match splitN2 (stripLead req.requestURI) with
    | [upHost, upPath] =>
      let out := buildOutbound req upHost upPath
      match oracle attempt with
      | .transportError =>
        let next := makeRequest cfg req oracle (attempt + 1)
        (next.1, Event.call attempt out :: Event.sleepMs (100 * attempt) :: next.2)
      | .response r =>
        if r.statusCode = 429 then
          let ra := peekStr r.headers "Retry-After"
          let sleeps :=
            if 0 < ra.length ∧ 0 < goAtoi ra then
              [Event.sleepMs (1000 * (goAtoi ra).toNat + 100)]
            else []
          (r, Event.call attempt out :: sleeps)
        else if 500 ≤ r.statusCode ∧ r.statusCode ≤ 599 then
          let next := makeRequest cfg req oracle (attempt + 1)
          (next.1, Event.call attempt out :: Event.sleepMs (100 * attempt) :: next.2)
        else
          (r, [Event.call attempt out])
    | _ => (badFormat400, [])
termination_by (cfg.retries + 1 - (attempt : Int)).toNat
decreasing_by all_goals omega

/-- The response-relay step of `requestHandler` (src/main.go lines
100-108): copy the status, `Set` every upstream header in visit order
onto the outbound response, then `Set` the two proxy headers, and copy
the body. -/
def relayResponse (r : Response) : Response :=
  { statusCode := r.statusCode
    headers :=
      headerSet
        (headerSet (r.headers.foldl (fun acc kv => headerSet acc kv.1 kv.2) [])
          "X-Proxy-Upstream-Status" (toString r.statusCode))
        "Via" "roproxy-lite"
    body := r.body }

/-- `requestHandler` after the PROXYKEY check: validate the target
format, run the retry engine from attempt 1, and relay its result. -/
def handleAfterAuth (cfg : Config) (req : InboundRequest)
    (oracle : Nat → AttemptResult) : Response × List Event :=
  if (splitN2 (stripLead req.requestURI)).length < 2 then
    (badFormat400, [])
  else
    let res := makeRequest cfg req oracle 1
    (relayResponse res.1, res.2)

/-- `requestHandler(ctx)` from src/main.go: when KEY is configured and
the PROXYKEY header does not equal it, answer 407 with no upstream
work; otherwise proceed to format validation and the retry engine. -/
def requestHandler (cfg : Config) (req : InboundRequest)
    (oracle : Nat → AttemptResult) : Response × List Event :=
  match cfg.key with
  | some val =>
    if peekStr req.headers "PROXYKEY" ≠ val then
      (auth407, [])
    else
      handleAfterAuth cfg req oracle
  | none => handleAfterAuth cfg req oracle

/-- `true` exactly on upstream-call events. -/
def isCall : Event → Bool
  | .call _ _ => true
  | .sleepMs _ => false

/-- Number of upstream calls recorded in a trace. -/
def countCalls (evs : List Event) : Nat :=
  (evs.filter isCall).length

/-- The event trace of a run of failing attempts `a, a+1, ...` of
length `k`: each attempt calls upstream and then sleeps
`100ms * attempt`. -/
def retryTrace (out : OutboundRequest) : Nat → Nat → List Event
  | _, 0 => []
  | a, k + 1 =>
    Event.call a out :: Event.sleepMs (100 * a) :: retryTrace out (a + 1) k

/-- Last entry of a header list whose name lowercases to `k`, if any. -/
def lastMatch (k : String) : List (String × String) → Option (String × String)
  | [] => none
  | p :: rest =>
    match lastMatch k rest with
    | some q => some q
    | none => if (lowerStr p.1) = k then some p else none

/-- The oracle whose attempts `1..n` fail at the transport level and
whose later attempts return `r`. -/
def transportOracle (n : Nat) (r : Response) : Nat → AttemptResult :=
  fun a => if a ≤ n then .transportError else .response r

/-- The PROXYKEY check passes: KEY is unset, or the PROXYKEY header
value equals it. -/
def authPasses (cfg : Config) (req : InboundRequest) : Prop :=
  ∀ val, cfg.key = some val → peekStr req.headers "PROXYKEY" = val

/-- Concrete configuration: RETRIES=2, KEY unset. -/
def cfg2 : Config := { retries := 2, key := none }

/-- Concrete configuration: RETRIES=1, KEY unset. -/
def cfg1 : Config := { retries := 1, key := none }

/-- Concrete configuration: RETRIES=0, KEY unset. -/
def cfg0 : Config := { retries := 0, key := none }

/-- Concrete configuration: RETRIES=2, KEY="sekrit". -/
def cfgKey : Config := { retries := 2, key := some "sekrit" }

/-- Concrete configuration: RETRIES=2, KEY set to the empty string. -/
def cfgEmptyKey : Config := { retries := 2, key := some "" }

/-- A concrete well-formed inbound request. -/
def reqEx : InboundRequest :=
  { method := "GET", requestURI := "/example.com/foo/bar?x=1", headers := [], body := "" }

/-- A concrete inbound request whose target has an empty host part:
stripping the slash gives `/x`, which splits into `["", "x"]`. -/
def reqSlashSlash : InboundRequest :=
  { method := "GET", requestURI := "//x", headers := [], body := "" }

/-- A concrete inbound request whose target has no second segment. -/
def reqNoSlash : InboundRequest :=
  { method := "GET", requestURI := "/justhost", headers := [], body := "" }

/-- A concrete inbound request carrying a non-empty PROXYKEY header. -/
def reqKeyed : InboundRequest :=
  { method := "GET", requestURI := "/example.com/foo", headers := [("PROXYKEY", "x")], body := "" }

/-- A concrete 503 upstream response. -/
def resp503 : Response := { statusCode := 503, headers := [], body := "bad gateway" }

/-- A concrete 200 upstream response. -/
def resp200 : Response := { statusCode := 200, headers := [], body := "ok" }

/-- A concrete 429 upstream response with `Retry-After: 2`. -/
def resp429 : Response :=
  { statusCode := 429, headers := [("Retry-After", "2")], body := "slow down" }

/-- A concrete 200 upstream response with two distinct headers. -/
def respAB : Response :=
  { statusCode := 200, headers := [("A", "1"), ("B", "2")], body := "X" }

/-- A concrete 200 upstream response with a repeated header name. -/
def respAA : Response :=
  { statusCode := 200, headers := [("A", "1"), ("A", "2")], body := "X" }

/-- The oracle whose every attempt returns the 503 response. -/
def oracle503 : Nat → AttemptResult := fun _ => .response resp503

/-- The oracle whose every attempt returns the 200 response. -/
def oracle200 : Nat → AttemptResult := fun _ => .response resp200

/-- The oracle whose every attempt returns the 429 response. -/
def oracle429 : Nat → AttemptResult := fun _ => .response resp429

/-! ## Helper lemmas about the retry engine -/

/-- When the attempt counter has already exceeded `retries`, the engine
returns the synthetic 504 without calling upstream. -/
theorem makeRequest_stop (cfg : Config) (req : InboundRequest)
    (oracle : Nat → AttemptResult) (a : Nat) (h : (a : Int) > cfg.retries) :
    makeRequest cfg req oracle a = (timeout504, []) := by
  rw [makeRequest]
  simp [h]

/-- A run in which every consulted attempt yields a 5xx response ends in
the synthetic 504, with one call and one backoff sleep per attempt from
`a` up to `retries`. -/
theorem makeRequest_all5xx (cfg : Config) (req : InboundRequest)
    (oracle : Nat → AttemptResult) (upHost upPath : String)
    (hs : splitN2 (stripLead req.requestURI) = [upHost, upPath])
    (h5 : ∀ n, ∃ r, oracle n = .response r ∧ 500 ≤ r.statusCode ∧ r.statusCode ≤ 599) :
    ∀ k, ∀ a : Nat, (cfg.retries + 1 - (a : Int)).toNat = k →
      makeRequest cfg req oracle a =
        (timeout504, retryTrace (buildOutbound req upHost upPath) a k) := by
  intro k
  induction k with
  | zero =>
    intro a ha
    have hgt : (a : Int) > cfg.retries := by omega
    simp [makeRequest_stop cfg req oracle a hgt, retryTrace]
  | succ k ih =>
    intro a ha
    have hle : ¬ ((a : Int) > cfg.retries) := by omega
    obtain ⟨r, hor, h1, h2⟩ := h5 a
    have h429 : ¬ (r.statusCode = 429) := by omega
    have hnext := ih (a + 1) (by omega)
    rw [makeRequest]
    simp [hle, hs, hor, h429, h1, h2, hnext, retryTrace]

/-- A run in which every attempt up to `retries` fails at the transport
level ends in the synthetic 504, with one call and one backoff sleep per
attempt from `a` up to `retries`. -/
theorem makeRequest_transport_exhaust (cfg : Config) (req : InboundRequest)
    (oracle : Nat → AttemptResult) (upHost upPath : String)
    (hs : splitN2 (stripLead req.requestURI) = [upHost, upPath])
    (hf : ∀ n : Nat, (n : Int) ≤ cfg.retries → oracle n = .transportError) :
    ∀ k, ∀ a : Nat, (cfg.retries + 1 - (a : Int)).toNat = k →
      makeRequest cfg req oracle a =
        (timeout504, retryTrace (buildOutbound req upHost upPath) a k) := by
  intro k
  induction k with
  | zero =>
    intro a ha
    have hgt : (a : Int) > cfg.retries := by omega
    simp [makeRequest_stop cfg req oracle a hgt, retryTrace]
  | succ k ih =>
    intro a ha
    have hle : ¬ ((a : Int) > cfg.retries) := by omega
    have hor := hf a (by omega)
    have hnext := ih (a + 1) (by omega)
    rw [makeRequest]
    simp [hle, hs, hor, hnext, retryTrace]

/-- A run whose attempts `a..N` fail at the transport level and whose
attempt `N+1 ≤ retries` yields a non-429, non-5xx response returns that
response, after the failed calls with their backoff sleeps and one last
successful call. -/
theorem makeRequest_transport_success (cfg : Config) (req : InboundRequest)
    (oracle : Nat → AttemptResult) (upHost upPath : String)
    (hs : splitN2 (stripLead req.requestURI) = [upHost, upPath])
    (N : Nat) (r : Response)
    (hN : (N : Int) + 1 ≤ cfg.retries)
    (hf : ∀ n, n ≤ N → oracle n = .transportError)
    (hr : oracle (N + 1) = .response r)
    (h429 : r.statusCode ≠ 429)
    (h5 : ¬ (500 ≤ r.statusCode ∧ r.statusCode ≤ 599)) :
    ∀ d, ∀ a : Nat, a + d = N + 1 →
      makeRequest cfg req oracle a =
        (r, retryTrace (buildOutbound req upHost upPath) a d ++
            [Event.call (N + 1) (buildOutbound req upHost upPath)]) := by
  intro d
  induction d with
  | zero =>
    intro a ha
    have haN : a = N + 1 := by omega
    subst haN
    have hle : ¬ (((N + 1 : Nat) : Int) > cfg.retries) := by push_cast; omega
    rw [makeRequest]
    simp [hle, hs, hr, h429, h5, retryTrace]
    omega
  | succ d ih =>
    intro a ha
    have hle : ¬ ((a : Int) > cfg.retries) := by omega
    have hor := hf a (by omega)
    have hnext := ih (a + 1) (by omega)
    rw [makeRequest]
    simp [hle, hs, hor, hnext, retryTrace]

/-- A failing run of length `k` contains exactly `k` upstream calls. -/
theorem countCalls_retryTrace (out : OutboundRequest) :
    ∀ k a, countCalls (retryTrace out a k) = k := by
  intro k
  induction k with
  | zero => intro a; simp [retryTrace, countCalls]
  | succ k ih =>
    intro a
    simpa [retryTrace, countCalls, isCall] using ih (a + 1)

/-- Upstream-call counting distributes over trace concatenation. -/
theorem countCalls_append (t1 t2 : List Event) :
    countCalls (t1 ++ t2) = countCalls t1 + countCalls t2 := by
  simp [countCalls]

/-! ## Helper lemmas about header filtering and relaying -/

/-- A header already forwarded survives the rest of the loop when no
later inbound header shares its name (case-insensitively). -/
theorem mem_foldl_fwStep_persist :
    ∀ (l acc : List (String × String)) (p : String × String), p ∈ acc →
      (∀ q ∈ l, (lowerStr q.1) ≠ (lowerStr p.1)) →
      p ∈ l.foldl fwStep acc := by
  intro l
  induction l with
  | nil => intro acc p hp _; simpa using hp
  | cons r rest ih =>
    intro acc p hp hq
    simp only [List.foldl_cons]
    apply ih
    · show p ∈ fwStep acc r
      unfold fwStep
      split
      · exact hp
      · unfold headerSet
        refine List.mem_append_left _ ?_
        refine List.mem_filter.mpr ⟨hp, ?_⟩
        have hne := hq r (by simp)
        simpa using fun hc => hne (Eq.symm hc)
    · intro q hqr
      exact hq q (by simp [hqr])

/-- If no entry of `l` has lowercase name `k`, `lastMatch k l` is none;
stated as the contrapositive helper. -/
theorem lastMatch_none (k : String) :
    ∀ l, lastMatch k l = none → ∀ q ∈ l, (lowerStr q.1) ≠ k := by
  intro l
  induction l with
  | nil => intro _ q hq; simp at hq
  | cons p rest ih =>
    intro hnone q hq
    unfold lastMatch at hnone
    rcases hrest : lastMatch k rest with _ | val
    · rw [hrest] at hnone
      rcases List.mem_cons.mp hq with hq1 | hq1
      · subst hq1
        by_contra hc
        simp [hc] at hnone
      · exact ih hrest q hq1
    · rw [hrest] at hnone
      simp at hnone

/-- Every header produced by the forwarding loop has a name outside the
drop-set, provided the loop started from such headers. -/
theorem mem_foldl_fwStep_not_drop :
    ∀ (l acc : List (String × String)),
      (∀ q ∈ acc, (lowerStr q.1) ∉ dropSet) →
      ∀ p ∈ l.foldl fwStep acc, (lowerStr p.1) ∉ dropSet := by
  intro l
  induction l with
  | nil => intro acc hacc p hp; exact hacc p (by simpa using hp)
  | cons r rest ih =>
    intro acc hacc p hp
    simp only [List.foldl_cons] at hp
    refine ih (fwStep acc r) ?_ p hp
    intro q hq
    unfold fwStep at hq
    by_cases hr : dropSet.contains (lowerStr r.1)
    · rw [if_pos hr] at hq
      exact hacc q hq
    · rw [if_neg hr] at hq
      unfold headerSet at hq
      rcases List.mem_append.mp hq with hq1 | hq1
      · exact hacc q (List.mem_filter.mp hq1).1
      · have hqr : q = (r.1, r.2) := by simpa using hq1
        subst hqr
        simpa using hr

/-- The last inbound occurrence of a non-dropped header name is present
in the forwarded header set. -/
theorem lastMatch_mem_foldl_fwStep :
    ∀ (l acc : List (String × String)) (k : String) (kv : String × String),
      k ∉ dropSet → lastMatch k l = some kv →
      kv ∈ l.foldl fwStep acc := by
  intro l
  induction l with
  | nil => intro acc k kv _ hlast; simp [lastMatch] at hlast
  | cons r rest ih =>
    intro acc k kv hk hlast
    unfold lastMatch at hlast
    simp only [List.foldl_cons]
    rcases hrest : lastMatch k rest with _ | q
    · rw [hrest] at hlast
      by_cases hmatch : (lowerStr r.1) = k
      · rw [if_pos hmatch] at hlast
        have hkv : kv = r := by simpa using hlast.symm
        subst hkv
        apply mem_foldl_fwStep_persist
        · unfold fwStep
          have hnd : ¬ dropSet.contains (lowerStr kv.1) := by
            rw [hmatch]
            simpa using hk
          rw [if_neg hnd]
          unfold headerSet
          simp
        · intro q hq
          rw [hmatch]
          exact lastMatch_none k rest hrest q hq
      · rw [if_neg hmatch] at hlast
        simp at hlast
    · rw [hrest] at hlast
      have hkv : kv = q := by simpa using hlast.symm
      subst hkv
      exact ih (fwStep acc r) k kv hk hrest

/-- Folding `Set` over a header list with pairwise distinct names (and
no clash with the accumulator) appends it unchanged. -/
theorem foldl_headerSet_append :
    ∀ (l acc : List (String × String)),
      List.Pairwise (fun p q => (lowerStr p.1) ≠ (lowerStr q.1)) l →
      (∀ p ∈ acc, ∀ q ∈ l, (lowerStr p.1) ≠ (lowerStr q.1)) →
      l.foldl (fun acc2 kv => headerSet acc2 kv.1 kv.2) acc = acc ++ l := by
  intro l
  induction l with
  | nil => intro acc _ _; simp
  | cons r rest ih =>
    intro acc hpw hcross
    simp only [List.foldl_cons]
    have hset : headerSet acc r.1 r.2 = acc ++ [r] := by
      unfold headerSet
      have : acc.filter (fun p => (lowerStr p.1) ≠ (lowerStr r.1)) = acc := by
        apply List.filter_eq_self.mpr
        intro p hp
        simpa using hcross p hp r (by simp)
      rw [this]
    rw [hset]
    have hpw2 := (List.pairwise_cons.mp hpw).2
    have hhead := (List.pairwise_cons.mp hpw).1
    rw [ih (acc ++ [r]) hpw2 ?_]
    · simp
    · intro p hp q hq
      rcases List.mem_append.mp hp with hp1 | hp1
      · exact hcross p hp1 q (by simp [hq])
      · have hpr : p = r := by simpa using hp1
        subst hpr
        exact hhead q hq

/-! ## Helper lemmas about the URL split -/

/-- `breakSlash` on a list with a known first slash. -/
theorem breakSlash_append (b : List Char) :
    ∀ a : List Char, '/' ∉ a → breakSlash (a ++ '/' :: b) = (a, some b) := by
  intro a
  induction a with
  | nil => intro _; simp [breakSlash]
  | cons c cs ih =>
    intro hmem
    have hc : ¬ (c = '/') := by
      intro hcc
      exact hmem (by simp [hcc])
    have hcs : '/' ∉ cs := fun hin => hmem (by simp [hin])
    simp [breakSlash, hc, ih hcs]

/-- Go `SplitN` on a target of the exact form `<host>/<rest>` with a
slash-free host returns the pair. -/
theorem splitN2_concat (upHost rest : String) (hh : '/' ∉ upHost.toList) :
    splitN2 (upHost ++ "/" ++ rest) = [upHost, rest] := by
  unfold splitN2
  have hl : (upHost ++ "/" ++ rest).toList = upHost.toList ++ '/' :: rest.toList := by
    simp [String.toList, String.data_append]
  rw [hl, breakSlash_append rest.toList upHost.toList hh]
  simp [String.toList]

/-- Stripping the leading slash of `"/" ++ t` yields `t`. -/
theorem stripLead_slash (t : String) : stripLead ("/" ++ t) = t := by
  unfold stripLead
  have hl : ("/" ++ t).toList = '/' :: t.toList := by
    simp [String.toList, String.data_append]
  rw [hl]
  simp [String.toList]

/-- When the auth check passes, the handler proceeds past it. -/
theorem requestHandler_auth_pass (cfg : Config) (req : InboundRequest)
    (oracle : Nat → AttemptResult) (hauth : authPasses cfg req) :
    requestHandler cfg req oracle = handleAfterAuth cfg req oracle := by
  unfold requestHandler
  rcases hkey : cfg.key with _ | val
  · rfl
  · simp [hauth val hkey]

/-! ## Claims -/

/-- C3 (amended): for every inbound request-target whose stripped form
contains no `/` (the split yields fewer than two parts), the handler
responds 400 with exact body "URL format invalid." and the upstream
client is never invoked; the emptiness of the two parts is not
checked. -/
theorem c3_format_error_no_upstream (cfg : Config) (req : InboundRequest)
    (oracle : Nat → AttemptResult)
    (hauth : authPasses cfg req)
    (hlen : (splitN2 (stripLead req.requestURI)).length < 2) :
    requestHandler cfg req oracle = (badFormat400, []) ∧
    countCalls (requestHandler cfg req oracle).2 = 0 := by
  have hafter : handleAfterAuth cfg req oracle = (badFormat400, []) := by
    unfold handleAfterAuth
    rw [if_pos hlen]
  have hmain : requestHandler cfg req oracle = (badFormat400, []) :=
    (requestHandler_auth_pass cfg req oracle hauth).trans hafter
  exact ⟨hmain, by rw [hmain]; simp [countCalls]⟩

/-- C3 witness at a concrete input: `/justhost` has no second segment,
so the handler answers 400 and the trace is empty. -/
theorem c3_witness :
    requestHandler cfg2 reqNoSlash oracle200 = (badFormat400, []) ∧
    countCalls (requestHandler cfg2 reqNoSlash oracle200).2 = 0 :=
  c3_format_error_no_upstream cfg2 reqNoSlash oracle200
    (by intro val hv; simp [cfg2] at hv) (by decide)

/-- C3 counterexample: the target `//x` splits into `["", "x"]` — fewer
than two NON-EMPTY parts — yet the handler does not answer 400: it
forwards upstream (one call) and relays the 200. -/
theorem c3_counterexample :
    (requestHandler cfg2 reqSlashSlash oracle200).1.statusCode = 200 ∧
    countCalls (requestHandler cfg2 reqSlashSlash oracle200).2 = 1 := by
  have hs0 : splitN2 (stripLead reqSlashSlash.requestURI) = ["", "x"] := by decide
  have h1 : makeRequest cfg2 reqSlashSlash oracle200 1 =
      (resp200, [Event.call 1 (buildOutbound reqSlashSlash "" "x")]) := by
    rw [makeRequest]
    have hle : ¬ (((1 : Nat) : Int) > cfg2.retries) := by decide
    simp [hle, hs0, oracle200, resp200]
    decide
  have hmain : requestHandler cfg2 reqSlashSlash oracle200 =
      (relayResponse resp200, [Event.call 1 (buildOutbound reqSlashSlash "" "x")]) := by
    unfold requestHandler handleAfterAuth
    rw [hs0, h1]
    simp [cfg2]
  rw [hmain]
  constructor
  · decide
  · decide

/-- C4 (confirmed): when KEY is configured and the PROXYKEY header does
not byte-match it, the handler answers 407 with the exact body and an
empty trace (no upstream call); when KEY is unset the auth check is
skipped for every request. -/
theorem c4_auth_check (cfg : Config) (req : InboundRequest)
    (oracle : Nat → AttemptResult) :
    (∀ val, cfg.key = some val → peekStr req.headers "PROXYKEY" ≠ val →
      requestHandler cfg req oracle = (auth407, [])) ∧
    (cfg.key = none →
      requestHandler cfg req oracle = handleAfterAuth cfg req oracle) := by
  constructor
  · intro val hkey hne
    unfold requestHandler
    rw [hkey]
    simp [hne]
  · intro hkey
    unfold requestHandler
    rw [hkey]

/-- C4 witness: with KEY="sekrit" and no PROXYKEY header the handler
answers 407 and makes no upstream call; with KEY unset the same request
passes the check. -/
theorem c4_witness :
    requestHandler cfgKey reqEx oracle200 = (auth407, []) ∧
    requestHandler cfg2 reqEx oracle200 = handleAfterAuth cfg2 reqEx oracle200 :=
  ⟨(c4_auth_check cfgKey reqEx oracle200).1 "sekrit" rfl (by decide),
   (c4_auth_check cfg2 reqEx oracle200).2 rfl⟩

/-- C10 (confirmed): when KEY is set to the empty string authentication
is considered configured; a request whose PROXYKEY lookup yields the
empty string (in particular, a request without the header) passes, and
any non-empty PROXYKEY value is rejected with 407. -/
theorem c10_empty_key (cfg : Config) (req : InboundRequest)
    (oracle : Nat → AttemptResult) (hk : cfg.key = some "") :
    (peekStr req.headers "PROXYKEY" = "" →
      requestHandler cfg req oracle = handleAfterAuth cfg req oracle) ∧
    (peekStr req.headers "PROXYKEY" ≠ "" →
      requestHandler cfg req oracle = (auth407, [])) := by
  constructor
  · intro heq
    unfold requestHandler
    rw [hk]
    simp [heq]
  · intro hne
    unfold requestHandler
    rw [hk]
    simp [hne]

/-- C10 witness: with KEY="" a header-less request passes the check and
a request with PROXYKEY "x" is rejected with 407 and no upstream
call. -/
theorem c10_witness :
    requestHandler cfgEmptyKey reqEx oracle200 = handleAfterAuth cfgEmptyKey reqEx oracle200 ∧
    requestHandler cfgEmptyKey reqKeyed oracle200 = (auth407, []) :=
  ⟨(c10_empty_key cfgEmptyKey reqEx oracle200 rfl).1 (by decide),
   (c10_empty_key cfgEmptyKey reqKeyed oracle200 rfl).2 (by decide)⟩

/-- C9 (confirmed): the retry recursion is total (the Lean model is a
terminating function, its attempt counter rising by 1 per call until it
exceeds `retries`); when `retries < 1`, every authenticated well-formed
request yields the synthetic 504 "upstream timeout" with zero upstream
calls. -/
theorem c9_nonpositive_retries (cfg : Config) (req : InboundRequest)
    (oracle : Nat → AttemptResult) (upHost upPath : String)
    (hr : cfg.retries < 1)
    (hauth : authPasses cfg req)
    (hs : splitN2 (stripLead req.requestURI) = [upHost, upPath]) :
    requestHandler cfg req oracle = (relayResponse timeout504, []) ∧
    (requestHandler cfg req oracle).1.statusCode = 504 ∧
    (requestHandler cfg req oracle).1.body = "upstream timeout" ∧
    countCalls (requestHandler cfg req oracle).2 = 0 := by
  have hmk := makeRequest_stop cfg req oracle 1 (by push_cast; omega)
  have hafter : handleAfterAuth cfg req oracle = (relayResponse timeout504, []) := by
    unfold handleAfterAuth
    rw [if_neg (by rw [hs]; simp), hmk]
  have hmain := (requestHandler_auth_pass cfg req oracle hauth).trans hafter
  refine ⟨hmain, ?_, ?_, ?_⟩ <;> rw [hmain] <;> simp [relayResponse, timeout504, countCalls]

/-- C9 witness: RETRIES=0 yields the synthetic 504 with an empty trace
on a concrete well-formed request. -/
theorem c9_witness :
    requestHandler cfg0 reqEx oracle503 = (relayResponse timeout504, []) ∧
    (requestHandler cfg0 reqEx oracle503).1.statusCode = 504 ∧
    (requestHandler cfg0 reqEx oracle503).1.body = "upstream timeout" ∧
    countCalls (requestHandler cfg0 reqEx oracle503).2 = 0 :=
  c9_nonpositive_retries cfg0 reqEx oracle503 "example.com" "foo/bar?x=1"
    (by decide) (by intro val hv; simp [cfg0] at hv) (by decide)

/-- C1 (amended): when every upstream attempt returns a 5xx status, the
response relayed to the client is the SYNTHETIC 504 "upstream timeout"
(the last real 5xx response is discarded by `resp.Reset()`), after
exactly `retries` upstream calls, each followed by its linear backoff
sleep. -/
theorem c1_all_5xx_exhaustion (cfg : Config) (req : InboundRequest)
    (oracle : Nat → AttemptResult) (upHost upPath : String)
    (hauth : authPasses cfg req)
    (hs : splitN2 (stripLead req.requestURI) = [upHost, upPath])
    (hret : 1 ≤ cfg.retries)
    (h5 : ∀ n, ∃ r, oracle n = .response r ∧ 500 ≤ r.statusCode ∧ r.statusCode ≤ 599) :
    requestHandler cfg req oracle =
      (relayResponse timeout504,
       retryTrace (buildOutbound req upHost upPath) 1 cfg.retries.toNat) ∧
    (requestHandler cfg req oracle).1.statusCode = 504 ∧
    (requestHandler cfg req oracle).1.body = "upstream timeout" ∧
    countCalls (requestHandler cfg req oracle).2 = cfg.retries.toNat := by
  have hmk := makeRequest_all5xx cfg req oracle upHost upPath hs h5
    cfg.retries.toNat 1 (by omega)
  have hafter : handleAfterAuth cfg req oracle =
      (relayResponse timeout504,
       retryTrace (buildOutbound req upHost upPath) 1 cfg.retries.toNat) := by
    unfold handleAfterAuth
    rw [if_neg (by rw [hs]; simp), hmk]
  have hmain := (requestHandler_auth_pass cfg req oracle hauth).trans hafter
  refine ⟨hmain, ?_, ?_, ?_⟩ <;> rw [hmain]
  · rfl
  · rfl
  · exact countCalls_retryTrace _ cfg.retries.toNat 1

/-- C1 witness: with RETRIES=2 and every attempt answering 503, the
relayed response is the synthetic 504 after exactly 2 calls. -/
theorem c1_witness :
    requestHandler cfg2 reqEx oracle503 =
      (relayResponse timeout504,
       retryTrace (buildOutbound reqEx "example.com" "foo/bar?x=1") 1 2) ∧
    (requestHandler cfg2 reqEx oracle503).1.statusCode = 504 ∧
    (requestHandler cfg2 reqEx oracle503).1.body = "upstream timeout" ∧
    countCalls (requestHandler cfg2 reqEx oracle503).2 = 2 :=
  c1_all_5xx_exhaustion cfg2 reqEx oracle503 "example.com" "foo/bar?x=1"
    (by intro val hv; simp [cfg2] at hv) (by decide) (by decide)
    (fun n => ⟨resp503, rfl, by decide, by decide⟩)

/-- C1 counterexample: with RETRIES=2 and both attempts answering 503,
the final relayed response has status 504 and the synthetic body, not
the last real 503 the claim requires. -/
theorem c1_counterexample :
    (requestHandler cfg2 reqEx oracle503).1.statusCode = 504 ∧
    (requestHandler cfg2 reqEx oracle503).1.statusCode ≠ 503 ∧
    (requestHandler cfg2 reqEx oracle503).1.body = "upstream timeout" := by
  have hmk := makeRequest_all5xx cfg2 reqEx oracle503 "example.com" "foo/bar?x=1"
    (by decide) (fun n => ⟨resp503, rfl, by decide, by decide⟩) 2 1 (by decide)
  have hafter : handleAfterAuth cfg2 reqEx oracle503 =
      (relayResponse timeout504,
       retryTrace (buildOutbound reqEx "example.com" "foo/bar?x=1") 1 2) := by
    unfold handleAfterAuth
    rw [if_neg (by decide), hmk]
  have hmain := (requestHandler_auth_pass cfg2 reqEx oracle503
    (by intro val hv; simp [cfg2] at hv)).trans hafter
  rw [hmain]
  exact ⟨rfl, by decide, rfl⟩

/-- C2 (amended): with the first `N` attempts failing at the transport
level, when `N < retries` the final response is the relayed eventual
upstream success after `N + 1` calls, each retry preceded by its
`100ms * attempt` sleep; when `N ≥ retries` the final response is the
synthetic 504 "upstream timeout" after exactly `retries` calls. -/
theorem c2_transport_retries (cfg : Config) (req : InboundRequest)
    (N : Nat) (r : Response) (upHost upPath : String)
    (hauth : authPasses cfg req)
    (hs : splitN2 (stripLead req.requestURI) = [upHost, upPath])
    (hret : 1 ≤ cfg.retries)
    (h429 : r.statusCode ≠ 429)
    (h5 : ¬ (500 ≤ r.statusCode ∧ r.statusCode ≤ 599)) :
    ((N : Int) < cfg.retries →
      requestHandler cfg req (transportOracle N r) =
        (relayResponse r,
         retryTrace (buildOutbound req upHost upPath) 1 N ++
           [Event.call (N + 1) (buildOutbound req upHost upPath)]) ∧
      countCalls (requestHandler cfg req (transportOracle N r)).2 = N + 1) ∧
    (cfg.retries ≤ (N : Int) →
      (requestHandler cfg req (transportOracle N r)).1.statusCode = 504 ∧
      (requestHandler cfg req (transportOracle N r)).1.body = "upstream timeout" ∧
      countCalls (requestHandler cfg req (transportOracle N r)).2 = cfg.retries.toNat) := by
  constructor
  · intro hN
    have hmk := makeRequest_transport_success cfg req (transportOracle N r)
      upHost upPath hs N r (by omega)
      (fun n hn => by simp [transportOracle, hn])
      (by simp [transportOracle])
      h429 h5 N 1 (by omega)
    have hafter : handleAfterAuth cfg req (transportOracle N r) =
        (relayResponse r,
         retryTrace (buildOutbound req upHost upPath) 1 N ++
           [Event.call (N + 1) (buildOutbound req upHost upPath)]) := by
      unfold handleAfterAuth
      rw [if_neg (by rw [hs]; simp), hmk]
    have hmain := (requestHandler_auth_pass cfg req (transportOracle N r) hauth).trans hafter
    refine ⟨hmain, ?_⟩
    rw [hmain]
    simp only []
    rw [countCalls_append, countCalls_retryTrace]
    simp [countCalls, isCall]
  · intro hN
    have hmk := makeRequest_transport_exhaust cfg req (transportOracle N r)
      upHost upPath hs
      (fun n hn => by
        have hnN : n ≤ N := by omega
        simp [transportOracle, hnN])
      cfg.retries.toNat 1 (by omega)
    have hafter : handleAfterAuth cfg req (transportOracle N r) =
        (relayResponse timeout504,
         retryTrace (buildOutbound req upHost upPath) 1 cfg.retries.toNat) := by
      unfold handleAfterAuth
      rw [if_neg (by rw [hs]; simp), hmk]
    have hmain := (requestHandler_auth_pass cfg req (transportOracle N r) hauth).trans hafter
    refine ⟨?_, ?_, ?_⟩ <;> rw [hmain]
    · rfl
    · rfl
    · exact countCalls_retryTrace _ cfg.retries.toNat 1

/-- C2 witness: with RETRIES=2, one transport failure then a 200 yields
the relayed 200 after two calls; with RETRIES=1 the same sequence is cut
off at one call with the synthetic 504 (N = 1 ≥ retries). -/
theorem c2_witness :
    requestHandler cfg2 reqEx (transportOracle 1 resp200) =
      (relayResponse resp200,
       retryTrace (buildOutbound reqEx "example.com" "foo/bar?x=1") 1 1 ++
         [Event.call 2 (buildOutbound reqEx "example.com" "foo/bar?x=1")]) ∧
    (requestHandler cfg1 reqEx (transportOracle 1 resp200)).1.statusCode = 504 := by
  constructor
  · exact ((c2_transport_retries cfg2 reqEx 1 resp200 "example.com" "foo/bar?x=1"
      (by intro val hv; simp [cfg2] at hv) (by decide) (by decide) (by decide)
      (by decide)).1 (by decide)).1
  · exact ((c2_transport_retries cfg1 reqEx 1 resp200 "example.com" "foo/bar?x=1"
      (by intro val hv; simp [cfg1] at hv) (by decide) (by decide) (by decide)
      (by decide)).2 (by decide)).1

/-- C2 counterexample: with RETRIES=1 and N=1 (so N ≤ maxAttempts as the
claim reads), the final response is the synthetic 504, not the eventual
200 success the claim requires. -/
theorem c2_counterexample :
    (requestHandler cfg1 reqEx (transportOracle 1 resp200)).1.statusCode = 504 ∧
    (requestHandler cfg1 reqEx (transportOracle 1 resp200)).1.statusCode ≠ 200 ∧
    countCalls (requestHandler cfg1 reqEx (transportOracle 1 resp200)).2 = 1 := by
  have hmk := makeRequest_transport_exhaust cfg1 reqEx (transportOracle 1 resp200)
    "example.com" "foo/bar?x=1" (by decide)
    (fun n hn => by
      have hnN : n ≤ 1 := by
        have : cfg1.retries = 1 := by decide
        omega
      simp [transportOracle, hnN])
    1 1 (by decide)
  have hafter : handleAfterAuth cfg1 reqEx (transportOracle 1 resp200) =
      (relayResponse timeout504,
       retryTrace (buildOutbound reqEx "example.com" "foo/bar?x=1") 1 1) := by
    unfold handleAfterAuth
    rw [if_neg (by decide), hmk]
  have hmain := (requestHandler_auth_pass cfg1 reqEx (transportOracle 1 resp200)
    (by intro val hv; simp [cfg1] at hv)).trans hafter
  rw [hmain]
  refine ⟨rfl, by decide, ?_⟩
  exact countCalls_retryTrace _ 1 1

/-- C5 (amended): no inbound header whose lowercased name is in the
drop-set ever reaches the outbound request; every other inbound header
name reaches it with the value of its LAST inbound occurrence (repeated
names collapse under `Set`, so multi-value semantics is not
preserved). -/
theorem c5_header_filter (hs : List (String × String)) :
    (∀ p ∈ forwardHeaders hs, lowerStr p.1 ∉ dropSet) ∧
    (∀ k kv, k ∉ dropSet → lastMatch k hs = some kv → kv ∈ forwardHeaders hs) := by
  constructor
  · intro p hp
    unfold forwardHeaders at hp
    exact mem_foldl_fwStep_not_drop hs _ (by decide) p hp
  · intro k kv hk hlast
    unfold forwardHeaders
    exact lastMatch_mem_foldl_fwStep hs _ k kv hk hlast

/-- C5 witness: `Host` is dropped while `Cookie` survives verbatim on a
concrete inbound header list. -/
theorem c5_witness :
    ("Cookie", "c") ∈ forwardHeaders [("Host", "h"), ("Cookie", "c")] ∧
    (∀ p ∈ forwardHeaders [("Host", "h"), ("Cookie", "c")], lowerStr p.1 ∉ dropSet) :=
  ⟨(c5_header_filter [("Host", "h"), ("Cookie", "c")]).2 "cookie" ("Cookie", "c")
      (by decide) (by decide),
   (c5_header_filter [("Host", "h"), ("Cookie", "c")]).1⟩

/-- C5 counterexample: the repeated inbound header `Foo: a`, `Foo: b`
does NOT pass through with multi-value semantics — the first occurrence
is lost from the outbound request. -/
theorem c5_counterexample :
    ("Foo", "a") ∉ forwardHeaders [("Foo", "a"), ("Foo", "b")] ∧
    forwardHeaders [("Foo", "a"), ("Foo", "b")] =
      [("User-Agent", "RoProxy"), ("Foo", "b")] := by
  decide

/-- C6 (confirmed): an upstream 429 within the attempt budget is
returned as final after exactly one upstream call — no retry — with one
sleep of `Retry-After` seconds plus 100ms exactly when the header parses
to a positive integer, and no sleep otherwise. -/
theorem c6_429_final (cfg : Config) (req : InboundRequest)
    (oracle : Nat → AttemptResult) (a : Nat) (upHost upPath : String) (r : Response)
    (hs : splitN2 (stripLead req.requestURI) = [upHost, upPath])
    (ha : ¬ ((a : Int) > cfg.retries))
    (ho : oracle a = .response r)
    (h429 : r.statusCode = 429) :
    makeRequest cfg req oracle a =
      (r, Event.call a (buildOutbound req upHost upPath) ::
          (if 0 < (peekStr r.headers "Retry-After").length ∧
              0 < goAtoi (peekStr r.headers "Retry-After") then
            [Event.sleepMs (1000 * (goAtoi (peekStr r.headers "Retry-After")).toNat + 100)]
          else [])) ∧
    countCalls (makeRequest cfg req oracle a).2 = 1 := by
  have hmk : makeRequest cfg req oracle a =
      (r, Event.call a (buildOutbound req upHost upPath) ::
          (if 0 < (peekStr r.headers "Retry-After").length ∧
              0 < goAtoi (peekStr r.headers "Retry-After") then
            [Event.sleepMs (1000 * (goAtoi (peekStr r.headers "Retry-After")).toNat + 100)]
          else [])) := by
    rw [makeRequest]
    simp [ha, hs, ho, h429]
  refine ⟨hmk, ?_⟩
  rw [hmk]
  by_cases hcond : 0 < (peekStr r.headers "Retry-After").length ∧
      0 < goAtoi (peekStr r.headers "Retry-After")
  · simp [hcond, countCalls, isCall]
  · simp [hcond, countCalls, isCall]

/-- C6 witness: a 429 with `Retry-After: 2` on attempt 1 is final after
one call and one 2100ms sleep. -/
theorem c6_witness :
    makeRequest cfg2 reqEx oracle429 1 =
      (resp429, [Event.call 1 (buildOutbound reqEx "example.com" "foo/bar?x=1"),
                 Event.sleepMs 2100]) ∧
    countCalls (makeRequest cfg2 reqEx oracle429 1).2 = 1 := by
  have h := c6_429_final cfg2 reqEx oracle429 1 "example.com" "foo/bar?x=1" resp429
    (by decide) (by decide) rfl (by decide)
  refine ⟨?_, h.2⟩
  rw [h.1]
  decide

/-- C7 (amended): for every upstream response whose header names are
pairwise case-insensitively distinct and do not clash with the two
proxy header names, the relayed response keeps the status and body and
carries exactly the upstream headers followed by the two proxy-added
headers; a repeated upstream header name collapses to its last value,
and an upstream `Via` or `X-Proxy-Upstream-Status` is overwritten. -/
theorem c7_relay_shape (r : Response)
    (hpw : List.Pairwise (fun p q => lowerStr p.1 ≠ lowerStr q.1) r.headers)
    (hx : ∀ p ∈ r.headers, lowerStr p.1 ≠ "x-proxy-upstream-status")
    (hv : ∀ p ∈ r.headers, lowerStr p.1 ≠ "via") :
    relayResponse r =
      { statusCode := r.statusCode,
        headers := r.headers ++
          [("X-Proxy-Upstream-Status", toString r.statusCode), ("Via", "roproxy-lite")],
        body := r.body } := by
  unfold relayResponse
  rw [foldl_headerSet_append r.headers [] hpw (by simp)]
  simp only [List.nil_append]
  unfold headerSet
  have hxl : lowerStr "X-Proxy-Upstream-Status" = "x-proxy-upstream-status" := by decide
  have hvl : lowerStr "Via" = "via" := by decide
  have hf1 : r.headers.filter
      (fun p => lowerStr p.1 ≠ lowerStr "X-Proxy-Upstream-Status") = r.headers := by
    apply List.filter_eq_self.mpr
    intro p hp
    rw [hxl]
    simpa using hx p hp
  rw [hf1]
  have hf2 : (r.headers ++ [("X-Proxy-Upstream-Status", toString r.statusCode)]).filter
      (fun p => lowerStr p.1 ≠ lowerStr "Via") =
      r.headers ++ [("X-Proxy-Upstream-Status", toString r.statusCode)] := by
    apply List.filter_eq_self.mpr
    intro p hp
    rcases List.mem_append.mp hp with h1 | h1
    · rw [hvl]
      simpa using hv p h1
    · have hp2 : p = ("X-Proxy-Upstream-Status", toString r.statusCode) := by simpa using h1
      subst hp2
      show decide (lowerStr "X-Proxy-Upstream-Status" ≠ lowerStr "Via") = true
      decide
  rw [hf2]
  simp

/-- C7 witness: relaying a 200 with headers `A: 1`, `B: 2` and body `X`
keeps everything and appends exactly the two proxy headers. -/
theorem c7_witness :
    relayResponse respAB =
      { statusCode := respAB.statusCode,
        headers := respAB.headers ++
          [("X-Proxy-Upstream-Status", toString respAB.statusCode), ("Via", "roproxy-lite")],
        body := respAB.body } :=
  c7_relay_shape respAB (by decide) (by decide) (by decide)

/-- C7 counterexample: an upstream response with the repeated header
`A: 1`, `A: 2` is NOT relayed with headers `H` plus the two proxy
headers — the pair `("A", "1")` is dropped by the `Set`-based copy. -/
theorem c7_counterexample :
    ("A", "1") ∉ (relayResponse respAA).headers ∧
    (relayResponse respAA).headers =
      [("A", "2"), ("X-Proxy-Upstream-Status", "200"), ("Via", "roproxy-lite")] := by
  decide

/-- C8 (confirmed): a well-formed target `/<host>/<rest>` (slash-free
host) makes the first upstream call carry URI exactly
`https://<host>/<rest>` — the query string rides along in `rest` — with
method and body copied from the inbound request. -/
theorem c8_upstream_uri (cfg : Config) (req : InboundRequest)
    (oracle : Nat → AttemptResult) (upHost rest : String)
    (hh : '/' ∉ upHost.toList)
    (huri : req.requestURI = "/" ++ (upHost ++ "/" ++ rest))
    (hret : 1 ≤ cfg.retries) :
    (makeRequest cfg req oracle 1).2.head? =
      some (Event.call 1 (buildOutbound req upHost rest)) ∧
    (buildOutbound req upHost rest).uri = "https://" ++ upHost ++ "/" ++ rest ∧
    (buildOutbound req upHost rest).method = req.method ∧
    (buildOutbound req upHost rest).body = req.body := by
  have hs : splitN2 (stripLead req.requestURI) = [upHost, rest] := by
    rw [huri, stripLead_slash, splitN2_concat upHost rest hh]
  refine ⟨?_, rfl, rfl, rfl⟩
  have hle : ¬ (cfg.retries < (1 : Int)) := by omega
  rw [makeRequest]
  cases horacle : oracle 1 with
  | transportError => simp [hle, hs, horacle]
  | response r =>
    by_cases h429 : r.statusCode = 429
    · simp [hle, hs, horacle, h429]
    · by_cases h5 : 500 ≤ r.statusCode ∧ r.statusCode ≤ 599
      · simp [hle, hs, horacle, h429, h5]
      · simp [hle, hs, horacle, h429, h5]

/-- C8 witness: `/example.com/foo/bar?x=1` produces a first upstream
call to `https://example.com/foo/bar?x=1` with method and body
copied. -/
theorem c8_witness :
    (makeRequest cfg2 reqEx oracle200 1).2.head? =
      some (Event.call 1 (buildOutbound reqEx "example.com" "foo/bar?x=1")) ∧
    (buildOutbound reqEx "example.com" "foo/bar?x=1").uri =
      "https://" ++ "example.com" ++ "/" ++ "foo/bar?x=1" ∧
    (buildOutbound reqEx "example.com" "foo/bar?x=1").method = reqEx.method ∧
    (buildOutbound reqEx "example.com" "foo/bar?x=1").body = reqEx.body :=
  c8_upstream_uri cfg2 reqEx oracle200 "example.com" "foo/bar?x=1"
    (by decide) (by decide) (by decide)
